import Mathlib

/-!
Shallow embedding of `src/generateur/inverseur.py` (class `AnuleurDeBruitASIO`).

Samples are modelled as rationals (`ℚ`); frames and buffers as `List ℚ`.
The mutable object state becomes the structure `Etat`, threaded explicitly.
Interaction with the `sounddevice` library (stream creation/start, reported
latency) is modelled by an explicit environment `EnvDemarrage`; a Python
exception escaping a method is modelled by an `Except` result while the
field mutations that happened before the raise are kept in the returned
state, exactly as in Python.  Visualization fields updated under
`np.random.random()` gates, timing measurements and the thread-pool are
telemetry only and are not part of the model.
-/

namespace Inverseur

/-- A `sounddevice` stream handle, reduced to what the engine reads from it:
the reported input and output latencies (`stream.latency`), in seconds. -/
structure Flux where
  latenceEntree : ℚ
  latenceSortie : ℚ
deriving DecidableEq

/-- Outcome of the environment when `demarrer` touches the audio library:
`creation` is the result of `sd.Stream(...)` (`none` = the constructor
raised), `demarrageOk` tells whether `self.stream.start()` succeeded. -/
structure EnvDemarrage where
  creation : Option Flux
  demarrageOk : Bool
deriving DecidableEq

/-- Which library call raised during `demarrer` (the Python exception that
the method re-raises). -/
inductive ErreurFlux where
  | creation
  | demarrage
deriving DecidableEq

/-- The mutable state of an `AnuleurDeBruitASIO` instance (the fields of
`__init__` that the modelled methods read or write). -/
structure Etat where
  tauxEchantillonnage : ℕ
  tailleTampon : ℕ
  delaiCompensation : ℤ
  gain : ℚ
  ordreFiltre : ℕ
  freqCoupureBasse : ℚ
  freqCoupureHaute : ℚ
  b : List ℚ
  a : List ℚ
  z : List ℚ
  tampon : List ℚ
  positionTampon : ℕ
  donneesEntree : List ℚ
  donneesSortie : List ℚ
  enCours : Bool
  stream : Option Flux
  modeFaibleLatence : Bool
deriving DecidableEq

/-- Python `int()` applied to a float: truncation toward zero. -/
def pyInt (q : ℚ) : ℤ :=
  if 0 ≤ q then ⌊q⌋ else -⌊-q⌋

/-- One sample of `scipy.signal.lfilter` in direct form II transposed, with
the coefficients normalized by `a[0]` as scipy does: given state `z` and
input sample `x`, returns the output sample and the next state. -/
def lfilterEtape (b a z : List ℚ) (x : ℚ) : ℚ × List ℚ :=
  let a0 := a.headD 1
  let y := (b.headD 0 / a0) * x + z.headD 0
  (y, (List.range (max b.length a.length - 1)).map fun i =>
        (b.getD (i + 1) 0 / a0) * x + z.getD (i + 1) 0 - (a.getD (i + 1) 0 / a0) * y)

/-- Model of `scipy.signal.lfilter(b, a, x, zi=z)`: filter a whole frame, carrying
the state across samples; returns the filtered frame and the final state. -/
def lfilter (b a : List ℚ) (x : List ℚ) (z : List ℚ) : List ℚ × List ℚ :=
  match x with
  | [] => ([], z)
  | h :: t =>
      let p := lfilterEtape b a z h
      let q := lfilter b a t p.2
      (p.1 :: q.1, q.2)

/-- The circular-buffer write of the callback
(`self.tampon_historique[indices] = donnees_audio` with
`indices = (position_tampon + i) % taille`): sample `i` of the frame is
stored at index `(pos + i) % capacity`; with repeated indices the last
assignment wins, as with numpy fancy assignment. -/
def ecrireTampon (t : List ℚ) (pos : ℕ) (frame : List ℚ) : List ℚ :=
  match frame with
  | [] => t
  | x :: xs => ecrireTampon (t.set (pos % t.length) x) (pos + 1) xs

/-- The delayed read of the callback:
`position_delai = (pos - delai) % taille` and the result is
`tampon[(position_delai + i) % taille]` for `i < count`.  Python `%` on a
possibly negative left operand and positive modulus is `Int.emod`. -/
def lireRetarde (t : List ℚ) (pos : ℕ) (delai : ℤ) (count : ℕ) : List ℚ :=
  (List.range count).map fun i : ℕ =>
    t.getD (((((pos : ℤ) - delai) % (t.length : ℤ)) + (i : ℤ)) % (t.length : ℤ)).toNat 0

/-- Model of `np.clip(x, -0.95, 0.95)` on one sample. -/
def limiter (x : ℚ) : ℚ :=
  min (19 / 20) (max (-(19 / 20)) x)

/-- The DSP core of `callback_audio` up to (and excluding) the final
`np.clip`: write the raw frame into the history ring, band-pass filter it,
invert with `-gain`, and — only when `delai_compensation > 0` — add the
delayed reference read against the post-write cursor; when the delay is
not positive the inverted signal alone is the pre-limiter output. -/
def sortiePreLimiteur (e : Etat) (frame : List ℚ) : List ℚ :=
  let tampon1 := ecrireTampon e.tampon e.positionTampon frame
  let position1 := (e.positionTampon + frame.length) % e.tampon.length
  let filtrees := (lfilter e.b e.a frame e.z).1
  let inversees := filtrees.map fun v => -e.gain * v
  if 0 < e.delaiCompensation then
    List.zipWith (· + ·) (lireRetarde tampon1 position1 e.delaiCompensation inversees.length)
      inversees
  else
    inversees

/-- The full `callback_audio` state transition for one frame: returns the
state after the callback (ring buffer, cursor and filter state updated) and
the frame written to `outdata` (the pre-limiter mix clipped to
`[-0.95, 0.95]`). -/
def traiterTrame (e : Etat) (frame : List ℚ) : Etat × List ℚ :=
  let tampon1 := ecrireTampon e.tampon e.positionTampon frame
  let position1 := (e.positionTampon + frame.length) % e.tampon.length
  let z1 := (lfilter e.b e.a frame e.z).2
  ({ e with tampon := tampon1, positionTampon := position1, z := z1 },
   (sortiePreLimiteur e frame).map limiter)

/-- Method `demarrer`: when not running, set `en_cours`, create and start the
stream, and derive `delai_compensation` from the reported latency
(`int(sum(latency) * taux)`); on an exception reset `en_cours` and
re-raise, keeping every field mutation made before the raise (in
particular a created-but-unstarted stream handle stays stored).  When
already running, return `False` and change nothing. -/
def demarrer (e : Etat) (env : EnvDemarrage) : Etat × Except ErreurFlux Bool :=
  if e.enCours then
    (e, .ok false)
  else
    match env.creation with
    | none => ({ e with enCours := false }, .error .creation)
    | some flux =>
        if env.demarrageOk then
          ({ e with
              enCours := true
              stream := some flux
              delaiCompensation :=
                pyInt ((flux.latenceEntree + flux.latenceSortie) * (e.tauxEchantillonnage : ℚ)) },
           .ok true)
        else
          ({ e with enCours := false, stream := some flux }, .error .demarrage)

/-- Method `arreter`: when running, clear `en_cours` and (when a stream handle is
held) stop, close and clear it; otherwise do nothing. -/
def arreter (e : Etat) : Etat :=
  if e.enCours then { e with enCours := false, stream := none } else e

/-- Model of `np.mean(np.abs(l) ** 2)`. -/
def puissanceMoyenne (l : List ℚ) : ℚ :=
  (l.map fun x => x ^ 2).sum / (l.length : ℚ)

/-- Method `calibrer`: when a stream handle is available, the delay becomes
`int((sum(latency) + 0.002) * taux)`; otherwise the fallback default
`int(0.010 * taux)`.  The gain is `0.95` on every branch of the
power-ratio heuristic.  Returns the updated state together with the pair
`(delai, gain)` the method returns. -/
def calibrer (e : Etat) : Etat × (ℤ × ℚ) :=
  let delai : ℤ :=
    match e.stream with
    | some flux =>
        pyInt ((flux.latenceEntree + flux.latenceSortie + 1 / 500) * (e.tauxEchantillonnage : ℚ))
    | none => pyInt ((1 / 100) * (e.tauxEchantillonnage : ℚ))
  let gain : ℚ :=
    if 0 < e.donneesEntree.length ∧ 0 < e.donneesSortie.length then
      if 1 / 1000 < puissanceMoyenne e.donneesEntree then 19 / 20 else 19 / 20
    else 19 / 20
  ({ e with delaiCompensation := delai, gain := gain }, (delai, gain))

/-- The optional arguments of `regler_parametres` (`None` = not passed). -/
structure ParamsReglage where
  delai : Option ℤ := none
  gain : Option ℚ := none
  freqBasse : Option ℚ := none
  freqHaute : Option ℚ := none
  ordre : Option ℕ := none
  tauxEchant : Option ℕ := none
  tailleTampon : Option ℕ := none
  modeFaibleLatence : Option Bool := none

/-- Method `regler_parametres`, parameterized by `conception`, the coefficient
design `scipy.signal.butter(ordre, [fb/(taux/2), fh/(taux/2)], btype='band')`
kept abstract (its arguments: order, low cutoff, high cutoff, sample
rate), and by the environment for the potential stream restart.  The state
reset `self.z = lfilter_zi(b, a) * 0` is the all-zero vector of length
`max (len b) (len a) - 1`. -/
def reglerParametres (conception : ℕ → ℚ → ℚ → ℕ → List ℚ × List ℚ)
    (e : Etat) (p : ParamsReglage) (env : EnvDemarrage) : Etat :=
  let recalculerFiltre := false
  let redemarrerStream := false
  let e := match p.delai with
    | some d => { e with delaiCompensation := d }
    | none => e
  let e := match p.gain with
    | some g => { e with gain := g }
    | none => e
  let er1 : Etat × Bool := match p.ordre with
    | some o =>
        if o ≠ e.ordreFiltre then ({ e with ordreFiltre := o }, true) else (e, recalculerFiltre)
    | none => (e, recalculerFiltre)
  let e := er1.1
  let recalculerFiltre := er1.2
  let er2 : Etat × Bool × Bool := match p.tauxEchant with
    | some tx =>
        if tx ≠ e.tauxEchantillonnage then ({ e with tauxEchantillonnage := tx }, true, true)
        else (e, recalculerFiltre, redemarrerStream)
    | none => (e, recalculerFiltre, redemarrerStream)
  let e := er2.1
  let recalculerFiltre := er2.2.1
  let redemarrerStream := er2.2.2
  let er3 : Etat × Bool := match p.tailleTampon with
    | some tt =>
        if tt ≠ e.tailleTampon then ({ e with tailleTampon := tt }, true)
        else (e, redemarrerStream)
    | none => (e, redemarrerStream)
  let e := er3.1
  let redemarrerStream := er3.2
  let er4 : Etat × Bool × Bool := match p.modeFaibleLatence with
    | some m =>
        let e := { e with modeFaibleLatence := m }
        if m = true ∧ 2 < e.ordreFiltre then
          let e := { e with ordreFiltre := 2 }
          if 256 < e.tailleTampon then ({ e with tailleTampon := 256 }, true, true)
          else (e, true, redemarrerStream)
        else (e, recalculerFiltre, redemarrerStream)
    | none => (e, recalculerFiltre, redemarrerStream)
  let e := er4.1
  let recalculerFiltre := er4.2.1
  let redemarrerStream := er4.2.2
  let e :=
    if p.freqBasse.isSome ∨ p.freqHaute.isSome ∨ recalculerFiltre = true then
      let e := match p.freqBasse with
        | some fb => { e with freqCoupureBasse := fb }
        | none => e
      let e := match p.freqHaute with
        | some fh => { e with freqCoupureHaute := fh }
        | none => e
      let d := conception e.ordreFiltre e.freqCoupureBasse e.freqCoupureHaute e.tauxEchantillonnage
      { e with
          b := d.1
          a := d.2
          z := List.replicate (max d.1.length d.2.length - 1) 0 }
    else e
  if redemarrerStream = true ∧ e.enCours = true then
    (demarrer (arreter e) env).1
  else e

/-- A concrete state used to instantiate theorems: identity filter
(`b = [1,0]`, `a = [1,0]`, `z = [0]`), a two-sample history ring holding
`[3, 4]`, cursor at 0, unit gain, no delay compensation, stopped. -/
def etatTest : Etat where
  tauxEchantillonnage := 48000
  tailleTampon := 64
  delaiCompensation := 0
  gain := 1
  ordreFiltre := 2
  freqCoupureBasse := 50
  freqCoupureHaute := 4000
  b := [1, 0]
  a := [1, 0]
  z := [0]
  tampon := [3, 4]
  positionTampon := 0
  donneesEntree := [0]
  donneesSortie := [0]
  enCours := false
  stream := none
  modeFaibleLatence := true

/-! ## General lemmas about the circular buffer -/

theorem getD_set_ne (l : List ℚ) (x : ℚ) {k i : ℕ} (h : k ≠ i) :
    (l.set k x).getD i 0 = l.getD i 0 := by
  simp [List.getD_eq_getD_get?, List.get?_eq_getElem?, List.getElem?_set_ne h]

theorem getD_set_eq (l : List ℚ) (x : ℚ) {k : ℕ} (h : k < l.length) :
    (l.set k x).getD k 0 = x := by
  simp [List.getD_eq_getD_get?, List.get?_eq_getElem?, List.getElem?_set_eq_of_lt x h]

theorem ecrireTampon_length (t : List ℚ) (pos : ℕ) (f : List ℚ) :
    (ecrireTampon t pos f).length = t.length := by
  induction f generalizing t pos with
  | nil => rfl
  | cons x xs ih => rw [ecrireTampon, ih, List.length_set]

theorem ecart_mod_ne (L pos s : ℕ) (hs : 0 < s) (hsL : s < L) :
    (pos + s) % L ≠ pos % L := by
  intro h
  have h2 : pos ≡ pos + s [MOD L] := h.symm
  have h3 : L ∣ pos + s - pos := (Nat.modEq_iff_dvd' (Nat.le_add_right _ _)).mp h2
  have h4 : L ∣ s := by simpa using h3
  have h5 : L ≤ s := Nat.le_of_dvd hs h4
  omega

theorem ecrireTampon_getD_hors (t : List ℚ) (pos : ℕ) (f : List ℚ) (i : ℕ)
    (h : ∀ j, j < f.length → (pos + j) % t.length ≠ i) :
    (ecrireTampon t pos f).getD i 0 = t.getD i 0 := by
  induction f generalizing t pos with
  | nil => rfl
  | cons x xs ih =>
      rw [ecrireTampon, ih]
      · refine getD_set_ne t x ?_
        simpa using h 0 (by simp)
      · intro j hj
        have hj1 := h (j + 1) (by simp; omega)
        simp only [List.length_set]
        have : pos + 1 + j = pos + (j + 1) := by omega
        rw [this]
        exact hj1

theorem ecrireTampon_getD (f : List ℚ) (t : List ℚ) (pos : ℕ) {j : ℕ}
    (hj : j < f.length) (hn : f.length ≤ t.length) :
    (ecrireTampon t pos f).getD ((pos + j) % t.length) 0 = f.getD j 0 := by
  induction f generalizing t pos j with
  | nil => simp at hj
  | cons x xs ih =>
      have hL : 0 < t.length := lt_of_lt_of_le (by simp) hn
      match j with
      | 0 =>
          rw [ecrireTampon, ecrireTampon_getD_hors]
          · simpa using getD_set_eq t x (Nat.mod_lt _ hL)
          · intro k hk
            simp only [List.length_set]
            have : pos + 1 + k = pos + (k + 1) := by omega
            rw [this, Nat.add_zero]
            refine ecart_mod_ne t.length pos (k + 1) (Nat.succ_pos k) ?_
            simp at hn
            omega
      | j' + 1 =>
          rw [ecrireTampon]
          have harr : pos + (j' + 1) = pos + 1 + j' := by omega
          rw [harr]
          have hrec := ih (t.set (pos % t.length) x) (pos + 1)
            (by simpa using Nat.lt_of_succ_lt_succ hj)
            (by simp only [List.length_set]; simp at hn; omega)
          simpa [List.length_set] using hrec

theorem indice_lecture (L pos n i : ℕ) :
    (((((pos + n) % L : ℕ) : ℤ) - (n : ℤ)) % (L : ℤ) + (i : ℤ)) % (L : ℤ)
      = (((pos + i) % L : ℕ) : ℤ) := by
  have hA : (((pos + n) % L : ℕ) : ℤ) = ((pos : ℤ) + (n : ℤ)) % (L : ℤ) := by
    rw [Int.natCast_mod]
    push_cast
    ring_nf
  rw [hA]
  have e1 : ((pos : ℤ) + n) % (L : ℤ) ≡ (pos : ℤ) + n [ZMOD (L : ℤ)] :=
    Int.emod_emod_of_dvd _ dvd_rfl
  have e3 : (((pos : ℤ) + n) % (L : ℤ) - n) % (L : ℤ) ≡ (pos : ℤ) + n - n [ZMOD (L : ℤ)] :=
    (Int.emod_emod_of_dvd _ dvd_rfl).trans (e1.sub_right (n : ℤ))
  have e4 := e3.add_right (i : ℤ)
  have e5 : (pos : ℤ) + n - n + i = (pos : ℤ) + i := by ring
  rw [e5] at e4
  have e6 : ((((pos : ℤ) + n) % (L : ℤ) - n) % (L : ℤ) + i) % (L : ℤ)
      = ((pos : ℤ) + i) % (L : ℤ) := e4
  rw [e6, Int.natCast_mod]
  push_cast
  ring_nf

/-- C2 (amended): the delayed read returns the `count` samples STARTING
`delaySamples` behind the post-write cursor, so a frame just written is
read back in full with `delaySamples = frame.length` (not `0`). -/
theorem lecture_retour_trame (t f : List ℚ) (pos : ℕ)
    (hlen : f.length ≤ t.length) :
    lireRetarde (ecrireTampon t pos f) ((pos + f.length) % t.length)
      (f.length : ℤ) f.length = f := by
  unfold lireRetarde
  apply List.ext_getElem
  · simp
  · intro i h1 h2
    simp only [List.getElem_map, List.getElem_range, ecrireTampon_length]
    rw [indice_lecture t.length pos f.length i, Int.toNat_natCast]
    have hi : i < f.length := h2
    rw [ecrireTampon_getD f t pos hi hlen]
    exact List.getD_eq_getElem f 0 hi

/-- C3 (amended): the delayed read never fails; the read position is taken
modulo the capacity, so an excessive delay silently wraps around. -/
theorem lecture_retardee_modulo (t : List ℚ) (pos : ℕ) (delai : ℤ) (count : ℕ) :
    lireRetarde t pos delai count = lireRetarde t pos (delai % (t.length : ℤ)) count := by
  unfold lireRetarde
  have e1 : delai % (t.length : ℤ) ≡ delai [ZMOD (t.length : ℤ)] :=
    Int.emod_emod_of_dvd _ dvd_rfl
  have e2 : ((pos : ℤ) - delai) % (t.length : ℤ)
      = ((pos : ℤ) - delai % (t.length : ℤ)) % (t.length : ℤ) :=
    ((Int.ModEq.refl (pos : ℤ)).sub e1).symm
  rw [e2]

/-! ## Claims -/

/-- C1 (counterexample): with `delai_compensation = 0`, unit gain, the
identity filter and the history ring `[3, 4]`, the frame `[1/2]` yields the
pre-limiter output `[-1/2]` — the inverted signal alone — which differs
from `reference + inverted` whether the reference is the delayed read at
delay 0 against the post-write cursor (`[4]`, sum `[7/2]`) or the most
recent raw samples themselves (`[1/2]`, sum `[0]`). -/
theorem sortie_delai_nul_contre_exemple :
    sortiePreLimiteur etatTest [1 / 2] = [-(1 / 2)] ∧
    List.zipWith (· + ·)
      (lireRetarde (ecrireTampon etatTest.tampon etatTest.positionTampon [(1 / 2 : ℚ)])
        ((etatTest.positionTampon + 1) % etatTest.tampon.length) etatTest.delaiCompensation 1)
      ((lfilter etatTest.b etatTest.a [(1 / 2 : ℚ)] etatTest.z).1.map fun v => -etatTest.gain * v)
      = [7 / 2] ∧
    List.zipWith (· + ·) [(1 / 2 : ℚ)]
      ((lfilter etatTest.b etatTest.a [(1 / 2 : ℚ)] etatTest.z).1.map fun v => -etatTest.gain * v)
      = [0] ∧
    ([-(1 / 2)] : List ℚ) ≠ [7 / 2] ∧ ([-(1 / 2)] : List ℚ) ≠ [0] := by
  refine ⟨?_, ?_, ?_, ?_, ?_⟩ <;>
    norm_num [sortiePreLimiteur, etatTest, lfilter, lfilterEtape, ecrireTampon, lireRetarde,
      List.range_succ, List.getD]

/-- C1 (amended): when `delai_compensation = 0` the pre-limiter output of
the per-frame transform is the inverted filtered signal `-gain * filtered`
alone — no delayed reference is added — and the emitted frame is its
clipping to `[-0.95, 0.95]`. -/
theorem sortie_delai_nul (e : Etat) (f : List ℚ) (h : e.delaiCompensation = 0) :
    sortiePreLimiteur e f = (lfilter e.b e.a f e.z).1.map (fun v => -e.gain * v) ∧
    (traiterTrame e f).2
      = ((lfilter e.b e.a f e.z).1.map (fun v => -e.gain * v)).map limiter := by
  constructor
  · simp [sortiePreLimiteur, h]
  · simp [traiterTrame, sortiePreLimiteur, h]

/-- C1 (witness): the amended statement evaluated at the concrete test
state, whose delay compensation is zero. -/
theorem sortie_delai_nul_temoin :
    sortiePreLimiteur etatTest [1]
      = (lfilter etatTest.b etatTest.a [1] etatTest.z).1.map (fun v => -etatTest.gain * v) ∧
    (traiterTrame etatTest [1]).2
      = ((lfilter etatTest.b etatTest.a [1] etatTest.z).1.map
          (fun v => -etatTest.gain * v)).map limiter :=
  sortie_delai_nul etatTest [1] (by decide)

/-- C2 (counterexample): writing the frame `[1, 2]` into the all-zero
four-sample ring and reading back two samples at delay 0 returns `[0, 0]`
(the stale samples just AFTER the cursor), not the last two samples
written. -/
theorem lecture_delai_nul_contre_exemple :
    lireRetarde (ecrireTampon [0, 0, 0, 0] 0 [1, 2]) ((0 + 2) % 4) 0 2 = [0, 0] ∧
    ([0, 0] : List ℚ) ≠ [1, 2] := by
  decide

/-- C2 (witness): the read-back identity at delay = frame length, on the
concrete frame `[1, 2, 3]` written into a four-sample ring. -/
theorem lecture_retour_trame_temoin :
    ([1, 2, 3] : List ℚ).length ≤ ([0, 0, 0, 0] : List ℚ).length ∧
    lireRetarde (ecrireTampon [0, 0, 0, 0] 0 [1, 2, 3]) ((0 + 3) % 4) 3 3 = [1, 2, 3] :=
  ⟨by decide, lecture_retour_trame [0, 0, 0, 0] [1, 2, 3] 0 (by decide)⟩

/-- C3 (counterexample): a delayed read with `delaySamples = 5 ≥ capacity
= 4` (and `delaySamples + count = 7 > 4`) does not fail: it returns the
frame `[4, 1]`, identical to the wrapped read at delay `5 % 4 = 1`. -/
theorem lecture_capacite_depassee_contre_exemple :
    lireRetarde (ecrireTampon [0, 0, 0, 0] 0 [1, 2, 3, 4]) 0 5 2 = [4, 1] ∧
    lireRetarde (ecrireTampon [0, 0, 0, 0] 0 [1, 2, 3, 4]) 0 5 2
      = lireRetarde (ecrireTampon [0, 0, 0, 0] 0 [1, 2, 3, 4]) 0 1 2 := by
  decide

/-- C4: every sample the callback writes to the output is bounded by the
limiter ceiling 0.95 in absolute value, whatever the pre-limiter mix was. -/
theorem sortie_limitee (e : Etat) (f : List ℚ) (x : ℚ)
    (hx : x ∈ (traiterTrame e f).2) : |x| ≤ 19 / 20 := by
  simp only [traiterTrame, List.mem_map] at hx
  obtain ⟨v, -, rfl⟩ := hx
  unfold limiter
  rw [abs_le]
  exact ⟨le_min (by norm_num) (le_max_left _ _), min_le_left _ _⟩

/-- C4 (witness): at gain 2 the pre-limiter sample `-2` is emitted as
`-0.95`, a member of the output frame, and the bound holds for it. -/
theorem sortie_limitee_temoin :
    -(19 / 20 : ℚ) ∈ (traiterTrame { etatTest with gain := 2 } [1]).2 ∧
    |(-(19 / 20) : ℚ)| ≤ 19 / 20 :=
  ⟨by
    norm_num [traiterTrame, sortiePreLimiteur, etatTest, lfilter, lfilterEtape, ecrireTampon,
      lireRetarde, limiter],
   sortie_limitee { etatTest with gain := 2 } [1] (-(19 / 20)) (by
    norm_num [traiterTrame, sortiePreLimiteur, etatTest, lfilter, lfilterEtape, ecrireTampon,
      lireRetarde, limiter])⟩

/-- C5 (counterexample): with a measured latency of 0.0051 s at 48 kHz the
code truncates `0.0071 * 48000 = 340.8` to 340 samples, while rounding as
the claim states would give 341. -/
theorem calibrage_arrondi_contre_exemple :
    (calibrer { etatTest with stream := some ⟨51 / 10000, 0⟩ }).2.1 = 340 ∧
    round (((51 : ℚ) / 10000 + 1 / 500) * 48000) = 341 ∧
    (340 : ℤ) ≠ 341 := by
  refine ⟨by norm_num [calibrer, etatTest, pyInt], ?_, by decide⟩
  rw [round_eq]
  norm_num

/-- C5 (amended): with a stream latency available, `calibrer` returns gain
0.95 and the delay `int((latIn + latOut + 0.002) * sampleRate)` — Python
`int` truncation toward zero, not rounding, and with no clamping to the
delay-line capacity. -/
theorem calibrage_avec_flux (e : Etat) (flux : Flux) (h : e.stream = some flux) :
    (calibrer e).2
      = (pyInt ((flux.latenceEntree + flux.latenceSortie + 1 / 500)
            * (e.tauxEchantillonnage : ℚ)),
         19 / 20) := by
  simp only [calibrer, h]
  split_ifs <;> rfl

/-- C5 (witness): the end-to-end scenario — measured latency 0.005 s at
48 kHz gives delay 336 samples and gain 0.95. -/
theorem calibrage_avec_flux_temoin :
    (calibrer { etatTest with stream := some ⟨5 / 1000, 0⟩ }).2
      = (pyInt ((5 / 1000 + 0 + 1 / 500) * (48000 : ℚ)), 19 / 20) ∧
    pyInt ((5 / 1000 + 0 + 1 / 500) * (48000 : ℚ)) = 336 :=
  ⟨calibrage_avec_flux { etatTest with stream := some ⟨5 / 1000, 0⟩ } ⟨5 / 1000, 0⟩ rfl,
   by norm_num [pyInt]⟩

/-- C6 (counterexample): calibrating the concrete stopped state (no open
stream) does not fail: it returns the fallback delay
`int(0.010 * 48000) = 480` samples and gain 0.95. -/
theorem calibrage_sans_flux_contre_exemple :
    etatTest.stream = none ∧ etatTest.enCours = false ∧
    (calibrer etatTest).2 = (480, 19 / 20) := by
  refine ⟨rfl, rfl, ?_⟩
  norm_num [calibrer, etatTest, pyInt, puissanceMoyenne]

/-- C6 (amended): called without a stream handle, `calibrer` succeeds by
substituting the fallback default delay `int(0.010 * sampleRate)` and gain
0.95; no `NotRunning` failure exists in the code. -/
theorem calibrage_sans_flux (e : Etat) (h : e.stream = none) :
    (calibrer e).2 = (pyInt ((1 / 100) * (e.tauxEchantillonnage : ℚ)), 19 / 20) := by
  simp only [calibrer, h]
  split_ifs <;> rfl

/-- C6 (witness): the amended statement at the concrete stopped state:
fallback delay 480 samples at 48 kHz. -/
theorem calibrage_sans_flux_temoin :
    (calibrer etatTest).2 = (pyInt ((1 / 100) * (48000 : ℚ)), 19 / 20) ∧
    pyInt ((1 / 100) * (48000 : ℚ)) = 480 :=
  ⟨calibrage_sans_flux etatTest rfl, by norm_num [pyInt]⟩

/-- C7 (counterexample): starting the concrete idle state when stream
creation succeeds but `stream.start()` raises leaves the created handle
stored in the state (not released, controller half-open) and propagates
the exception rather than returning a typed result. -/
theorem demarrage_echec_contre_exemple :
    (demarrer etatTest ⟨some ⟨1 / 100, 1 / 100⟩, false⟩).1.stream = some ⟨1 / 100, 1 / 100⟩ ∧
    (demarrer etatTest ⟨some ⟨1 / 100, 1 / 100⟩, false⟩).1.enCours = false ∧
    (demarrer etatTest ⟨some ⟨1 / 100, 1 / 100⟩, false⟩).2
      = Except.error ErreurFlux.demarrage := by
  exact ⟨rfl, rfl, rfl⟩

/-- C7 (amended): a failed `demarrer` re-raises the library exception and
resets the running flag, but it does not release the device handle: if
creation succeeded and starting failed, the created stream stays stored in
the state; no filter-band validation happens during start. -/
theorem demarrage_echec (e : Etat) (env : EnvDemarrage) (h : e.enCours = false) :
    (env.creation = none →
      demarrer e env = ({ e with enCours := false }, Except.error ErreurFlux.creation)) ∧
    (∀ flux, env.creation = some flux → env.demarrageOk = false →
      demarrer e env
        = ({ e with enCours := false, stream := some flux },
           Except.error ErreurFlux.demarrage)) := by
  constructor
  · intro hc
    simp [demarrer, h, hc]
  · intro flux hc hd
    simp [demarrer, h, hc, hd]

/-- C7 (witness): the amended statement at the concrete idle state and the
environment where creation succeeds and starting fails. -/
theorem demarrage_echec_temoin :
    demarrer etatTest ⟨some ⟨1 / 100, 1 / 100⟩, false⟩
      = ({ etatTest with enCours := false, stream := some ⟨1 / 100, 1 / 100⟩ },
         Except.error ErreurFlux.demarrage) :=
  (demarrage_echec etatTest ⟨some ⟨1 / 100, 1 / 100⟩, false⟩ rfl).2 ⟨1 / 100, 1 / 100⟩ rfl rfl

/-- C8: updating only the gain leaves every other field — filter
coefficients `b`, `a`, filter state `z`, stream handle, running flag —
untouched (the result is exactly the input state with the new gain), and
the very next processed frame inverts with the new gain. -/
theorem reglage_gain_seul (conception : ℕ → ℚ → ℚ → ℕ → List ℚ × List ℚ)
    (e : Etat) (g : ℚ) (env : EnvDemarrage) :
    reglerParametres conception e { gain := some g } env = { e with gain := g } ∧
    ∀ f : List ℚ,
      sortiePreLimiteur (reglerParametres conception e { gain := some g } env) f
        = (if 0 < e.delaiCompensation then
             List.zipWith (· + ·)
               (lireRetarde (ecrireTampon e.tampon e.positionTampon f)
                 ((e.positionTampon + f.length) % e.tampon.length) e.delaiCompensation
                 ((lfilter e.b e.a f e.z).1.map fun v => -g * v).length)
               ((lfilter e.b e.a f e.z).1.map fun v => -g * v)
           else (lfilter e.b e.a f e.z).1.map fun v => -g * v) := by
  constructor
  · rfl
  · intro f
    rfl

/-- C9: `arreter` is idempotent — stopping twice equals stopping once, the
flag is false afterwards, stopping an idle controller (flag false, no
handle) is a no-op, and stopping a running controller clears the handle. -/
theorem arret_idempotent (e : Etat) :
    arreter (arreter e) = arreter e ∧
    (arreter e).enCours = false ∧
    (e.enCours = false ∧ e.stream = none → arreter e = e) ∧
    (e.enCours = true → (arreter e).stream = none) := by
  unfold arreter
  cases hb : e.enCours <;> simp [hb]

/-- C9 (witness): the statement evaluated at a concrete running state. -/
theorem arret_idempotent_temoin :
    (arreter (arreter { etatTest with enCours := true, stream := some ⟨0, 0⟩ })
        = arreter { etatTest with enCours := true, stream := some ⟨0, 0⟩ }) ∧
    (arreter { etatTest with enCours := true, stream := some ⟨0, 0⟩ }).enCours = false ∧
    (({ etatTest with enCours := true, stream := some ⟨0, 0⟩ } : Etat).enCours = false ∧
        ({ etatTest with enCours := true, stream := some ⟨0, 0⟩ } : Etat).stream = none →
      arreter { etatTest with enCours := true, stream := some ⟨0, 0⟩ }
        = { etatTest with enCours := true, stream := some ⟨0, 0⟩ }) ∧
    (({ etatTest with enCours := true, stream := some ⟨0, 0⟩ } : Etat).enCours = true →
      (arreter { etatTest with enCours := true, stream := some ⟨0, 0⟩ }).stream = none) :=
  arret_idempotent { etatTest with enCours := true, stream := some ⟨0, 0⟩ }

/-- C10: calling `demarrer` while already running returns `False` with no
exception and changes nothing — the returned state is the input state. -/
theorem demarrage_deja_actif (e : Etat) (env : EnvDemarrage) (h : e.enCours = true) :
    demarrer e env = (e, Except.ok false) := by
  simp [demarrer, h]

/-- C10 (witness): the statement at a concrete running state. -/
theorem demarrage_deja_actif_temoin :
    demarrer { etatTest with enCours := true } ⟨none, false⟩
      = ({ etatTest with enCours := true }, Except.ok false) :=
  demarrage_deja_actif { etatTest with enCours := true } ⟨none, false⟩ rfl

end Inverseur
